import Mathlib

/-!
Verification development for the ClangLib code-intelligence plugin.

This file gives a shallow embedding, in Lean, of the token-index database,
the per-translation-unit token database, the translation-unit wrapper and
the code-completion job of the ClangLib repository, translated from
`src/clangproxy.h` (member-function bodies of `ClTokenIndexDatabase`,
`ClTokenDatabase`, `ClIndexToken`, `ClFilenameDatabase` and the job
classes), `treemap.h`, and the translation-unit wrapper source file, and
proves or refutes the specification claims about them.

Modelling conventions:
* `wxString` values are byte lists (`Str`), their UTF-8 encodings; the
  conversions `utf8_str`/`FromUTF8` are the identity under this view.
* C `int` is `Int` (overflow does not occur in the modelled code paths);
  token-type bitmasks are `Nat` (the enumeration values are non-negative)
  with `&&&`/`|||` for the C `&`/`|`.
* Byte streams (`wxInputStream`/`wxOutputStream`) are `List Nat` of byte
  values, read from the head; four-byte integers are little-endian
  two's-complement, as produced by `in.Read(&val, sizeof(val))` on the
  little-endian platforms the plugin targets.
* The internal mutexes are ignored: the embedding is of the sequential
  behaviour of each operation.
-/

namespace ClangLib

/-- Byte strings: a `wxString` is modelled as the list of its UTF-8 bytes. -/
abbrev Str := List Nat

/-- A 1-based (line, column) source position (`ClTokenPosition`).
Modelled from the spec: the declaring header is not among the provided
sources; the spec describes 1-based (line, column) positions. -/
structure ClTokenPosition where
  line : Int
  column : Int
deriving DecidableEq, Repr, Inhabited

/-- A source range given by begin and end positions (`ClTokenRange`).
Modelled from the spec: the declaring header is not among the provided
sources. -/
structure ClTokenRange where
  beginLocation : ClTokenPosition
  endLocation : ClTokenPosition
deriving DecidableEq, Repr, Inhabited

/-- Modelled from the spec: `ClTokenType` is a bitmask enumeration
(Unknown = 0 plus distinct bits for scope/function/variable/parameter
declarations); the declaring header is not among the provided sources, so
the concrete bit positions are chosen arbitrarily but distinct. -/
def ClTokenType_Unknown : Nat := 0

/-- Scope-declaration bit of the `ClTokenType` bitmask. -/
def ClTokenType_ScopeDecl : Nat := 1

/-- Function-declaration bit of the `ClTokenType` bitmask. -/
def ClTokenType_FuncDecl : Nat := 2

/-- Variable-declaration bit of the `ClTokenType` bitmask. -/
def ClTokenType_VarDecl : Nat := 4

/-- Parameter-declaration bit of the `ClTokenType` bitmask. -/
def ClTokenType_ParmDecl : Nat := 8

/-- One recorded location of an index token (`ClIndexTokenLocation`):
a token-type flag, a file id and a range. Equality (the C++ `operator==`
used by `std::find` in `ClTokenIndexDatabase::UpdateToken`) compares all
three components; modelled from the spec (the declaring header is not
among the provided sources): a location is "the (type,file,range)
location". -/
structure ClIndexTokenLocation where
  tokenType : Nat
  fileId : Int
  range : ClTokenRange
deriving DecidableEq, Repr, Inhabited

/-- A project-wide index token (`ClIndexToken`): identifier, display name,
USR, aggregate type mask, location list, parent/override pairs and a
(scope name, scope USR) pair. Modelled from the spec for the field list
(the declaring header is not among the provided sources); the default
value models the C++ default constructor (empty strings and lists,
`Unknown` mask). -/
structure ClIndexToken where
  identifier : Str
  displayName : Str
  USR : Str
  tokenTypeMask : Nat
  locationList : List ClIndexTokenLocation
  parentTokenList : List (Str × Str)
  scope : Str × Str
deriving DecidableEq, Repr

instance : Inhabited ClIndexToken :=
  ⟨⟨[], [], [], ClTokenType_Unknown, [], [], ([], [])⟩⟩

/-- Largest id appearing in a key-to-id association list (used to bound the
range scanned by `treeIdSet`). -/
def treeMaxId (tree : List (Str × Nat)) : Nat :=
  (tree.map Prod.snd).foldr max 0

/-- The set of ids associated with an exact key, in ascending order without
duplicates: models `ClTreeMap::GetIdSet`, which fills a `std::set<int>`
(iteration ascending). The tree index of `treemap.h` is modelled as the
association list of its (key, id) pairs; the `TreeNode` implementation
file is not among the provided sources, so the association-set semantics
follows the spec of `GetIdSet`/`Insert`/`Remove`. -/
def treeIdSet (tree : List (Str × Nat)) (key : Str) : List Nat :=
  (List.range (treeMaxId tree + 1)).filter (fun i => decide ((key, i) ∈ tree))

/-- Removal of one (the first) occurrence of a value from a list: models
`ClTreeMap::Remove(key, value)`, which the spec describes as removing one
(key, id) association. -/
def eraseOne {A : Type} [DecidableEq A] : List A → A → List A
  | [], _ => []
  | x :: xs, a => if x = a then xs else x :: eraseOne xs a

/-- The number of occurrences of a value in a list (used to state
"exactly one matching entry" facts). -/
def occCount {A : Type} [DecidableEq A] (a : A) : List A → Nat
  | [] => 0
  | x :: xs => (if x = a then 1 else 0) + occCount a xs

/-- The generic `ClTreeMap<T>` of `treemap.h`: a dense append-only value
table `data` plus a tree index `tree` of (key, id) associations. -/
structure ClTreeMap (T : Type) where
  tree : List (Str × Nat)
  data : List T
deriving DecidableEq, Repr

/-- An empty `ClTreeMap`. -/
def ClTreeMap.empty {T : Type} : ClTreeMap T := ⟨[], []⟩

/-- Models `ClTreeMap<T>::Insert`: append the value to the table and record
the association (key, new id); returns the new map and the id. -/
def ClTreeMap.insert {T : Type} (m : ClTreeMap T) (key : Str) (value : T) :
    ClTreeMap T × Nat :=
  (⟨m.tree ++ [(key, m.data.length)], m.data ++ [value]⟩, m.data.length)

/-- Models `ClTreeMap<T>::GetIdSet`. -/
def ClTreeMap.getIdSet {T : Type} (m : ClTreeMap T) (key : Str) : List Nat :=
  treeIdSet m.tree key

/-- Models `ClTreeMap<T>::GetValue` (indexed access into the value table;
out-of-range access is undefined behaviour in C++ and is totalised with the
default value here — the modelled code paths guard it with `HasValue`). -/
def ClTreeMap.getValue {T : Type} [Inhabited T] (m : ClTreeMap T) (id : Nat) : T :=
  m.data.getD id default

/-- Models `ClTreeMap<T>::HasValue`. -/
def ClTreeMap.hasValue {T : Type} (m : ClTreeMap T) (id : Nat) : Bool :=
  id < m.data.length

/-- Models `ClTreeMap<T>::GetCount`. -/
def ClTreeMap.getCount {T : Type} (m : ClTreeMap T) : Nat :=
  m.data.length

/-- Byte-list comparison used to order `std::set<wxString>` keys
(lexicographic, shorter prefix first). -/
def strLtB : Str → Str → Bool
  | [], [] => false
  | [], _ :: _ => true
  | _ :: _, [] => false
  | a :: as, b :: bs => if a < b then true else if b < a then false else strLtB as bs

/-- Insert into a list sorted by `lt` (helper for modelling ordered-set
iteration). -/
def insertSorted {α : Type} (lt : α → α → Bool) (x : α) : List α → List α
  | [] => [x]
  | y :: ys => if lt x y then x :: y :: ys else y :: insertSorted lt x ys

/-- Sort a list by `lt` via insertion sort (helper for modelling ordered-set
iteration). -/
def sortByB {α : Type} (lt : α → α → Bool) (l : List α) : List α :=
  l.foldr (insertSorted lt) []

/-- Models `ClTreeMap<T>::GetKeySet`: the distinct keys, in the ascending
order in which a `std::set<wxString>` iterates them. -/
def ClTreeMap.getKeySet {T : Type} (m : ClTreeMap T) : List Str :=
  sortByB strLtB (m.tree.map Prod.fst).dedup

/-- Decimal digits (most significant first) of a natural number, as ASCII
byte values; helper for `intToStr`. Structural recursion on a fuel bound
(the value itself bounds the digit count, so the fallback is unreachable). -/
def natDigitsAux : Nat → Nat → List Nat → List Nat
  | 0, n, acc => (n % 10 + 48) :: acc
  | fuel + 1, n, acc =>
    if n < 10 then (n + 48) :: acc
    else natDigitsAux fuel (n / 10) ((n % 10 + 48) :: acc)

/-- Models `wxString::Format(wxT("%d"), v)`: the decimal rendering of an
integer as a byte string (used as the key of the file-to-token index). -/
def intToStr (v : Int) : Str :=
  if v < 0 then 45 :: natDigitsAux v.natAbs v.natAbs []
  else natDigitsAux v.toNat v.toNat []

/-- A filename-database entry (`ClFilenameEntry`): normalized path and
last-parsed timestamp. The timestamp is modelled as the `long long` value
serialized for it (0 when no timestamp was recorded). -/
structure ClFilenameEntry where
  filename : Str
  timestamp : Int
deriving DecidableEq, Repr, Inhabited

/-- The project-wide token index database (`ClTokenIndexDatabase`):
filename database, identifier-keyed token map, file-id-keyed token-id
index, and the modified flag. The file-to-token index `fileTokens` is the
`ClTreeMap<int>` specialization of `treemap.h`, modelled directly as its
association list (its `GetValue(id)` returns the id itself, per
`treemap.h`). -/
structure ClTokenIndexDatabase where
  fileDB : ClTreeMap ClFilenameEntry
  indexTokenMap : ClTreeMap ClIndexToken
  fileTokens : List (Str × Nat)
  modified : Bool
deriving DecidableEq, Repr

/-- A freshly constructed, empty token index database. -/
def emptyIndexDB : ClTokenIndexDatabase :=
  ⟨ClTreeMap.empty, ClTreeMap.empty, [], false⟩

/-- The token-lookup loop shared by `ClTokenIndexDatabase::UpdateToken`:
scan the identifier's id set in ascending order for the first token whose
USR equals the argument. -/
def ClTokenIndexDatabase.findTokenId (db : ClTokenIndexDatabase)
    (identifier USR : Str) : Option Nat :=
  (db.indexTokenMap.getIdSet identifier).find?
    (fun i => (db.indexTokenMap.getValue i).USR = USR)

/-- The token-mutation steps of the found-token branch of
`ClTokenIndexDatabase::UpdateToken`: OR in the type bit, append the
(type, file, range) location when not already present, and append each
override pair not already present (each membership test runs against the
list as grown so far, as the C++ `std::find` over the mutating vector
does). -/
def mergeIndexToken (tok : ClIndexToken) (tokType : Nat) (fileId : Int)
    (tokenRange : ClTokenRange) (overrideTokenList : List (Str × Str)) :
    ClIndexToken :=
  let tok1 := { tok with tokenTypeMask := tok.tokenTypeMask ||| tokType }
  let location : ClIndexTokenLocation := ⟨tokType, fileId, tokenRange⟩
  let tok2 :=
    if location ∈ tok1.locationList then tok1
    else { tok1 with locationList := tok1.locationList ++ [location] }
  let parents := overrideTokenList.foldl
    (fun acc p => if p ∈ acc then acc else acc ++ [p]) tok2.parentTokenList
  { tok2 with parentTokenList := parents }

/-- Models `ClTokenIndexDatabase::UpdateToken` (clangproxy.h): if a token
with this identifier and USR exists, merge the arguments into it via
`mergeIndexToken` and re-key the file index (remove-then-insert);
otherwise insert a brand-new token (the `ClIndexToken` value constructor
is modelled from the spec: mask and location list from the passed
type/file/range, override list and scope stored as passed). Sets the
modified flag in both branches. -/
def ClTokenIndexDatabase.updateToken (db : ClTokenIndexDatabase)
    (identifier displayName : Str) (fileId : Int) (USR : Str) (tokType : Nat)
    (tokenRange : ClTokenRange) (overrideTokenList : List (Str × Str))
    (scope : Str × Str) : ClTokenIndexDatabase :=
  match db.findTokenId identifier USR with
  | some i =>
    let tok3 := mergeIndexToken (db.indexTokenMap.getValue i) tokType fileId
      tokenRange overrideTokenList
    let fid := intToStr fileId
    { db with
      indexTokenMap := { db.indexTokenMap with
        data := db.indexTokenMap.data.set i tok3 },
      fileTokens := (eraseOne db.fileTokens (fid, i)) ++ [(fid, i)],
      modified := true }
  | none =>
    let newTok : ClIndexToken :=
      ⟨identifier, displayName, USR, tokType, [⟨tokType, fileId, tokenRange⟩],
        overrideTokenList, scope⟩
    let n := db.indexTokenMap.data.length
    let fid := intToStr fileId
    { db with
      indexTokenMap :=
        ⟨db.indexTokenMap.tree ++ [(identifier, n)],
          db.indexTokenMap.data ++ [newTok]⟩,
      fileTokens := db.fileTokens ++ [(fid, n)],
      modified := true }

/-- The location-erasure loop of `ClTokenIndexDatabase::RemoveFileTokens`,
modelled iterator-step by iterator-step: on a match the element is erased
and the iterator already points at its successor, which the loop increment
then skips (so the element directly after an erased one is never
examined). -/
def eraseLoop (fileId : Int) : List ClIndexTokenLocation → List ClIndexTokenLocation
  | [] => []
  | [l] => if l.fileId = fileId then [] else [l]
  | l :: m :: ms =>
    if l.fileId = fileId then m :: eraseLoop fileId ms
    else l :: eraseLoop fileId (m :: ms)

/-- Models `ClTokenIndexDatabase::RemoveFileTokens`: for every token id
indexed under the file's key (and passing the `HasValue` bounds check),
run the erasure loop over its location list; then remove the file's key
from the file-to-token index entirely. -/
def ClTokenIndexDatabase.removeFileTokens (db : ClTokenIndexDatabase)
    (fileId : Int) : ClTokenIndexDatabase :=
  let key := intToStr fileId
  let tokenList := treeIdSet db.fileTokens key
  let newData := tokenList.foldl
    (fun d i =>
      if i < d.length then
        let tok := d.getD i default
        d.set i { tok with locationList := eraseLoop fileId tok.locationList }
      else d)
    db.indexTokenMap.data
  { db with
    indexTokenMap := { db.indexTokenMap with data := newData },
    fileTokens := db.fileTokens.filter (fun p => ¬ p.1 = key) }

/-- Ordered insertion into an ascending duplicate-free list of file ids
(models `std::set<ClFileId>::insert`). -/
def intSetInsert (x : Int) : List Int → List Int
  | [] => [x]
  | y :: ys =>
    if x < y then x :: y :: ys
    else if x = y then y :: ys
    else y :: intSetInsert x ys

/-- Models `ClTokenIndexDatabase::LookupTokenFileList`: tokens match when
their aggregate mask contains all bits of the query mask and the USR
matches with a wildcard on either side (an empty query USR or an empty
stored USR both match); the returned set is the union of the file ids of
every matching token's locations. -/
def ClTokenIndexDatabase.lookupTokenFileList (db : ClTokenIndexDatabase)
    (identifier USR : Str) (typeMask : Nat) : List Int :=
  (db.indexTokenMap.getIdSet identifier).foldl
    (fun acc i =>
      let token := db.indexTokenMap.getValue i
      if (token.tokenTypeMask &&& typeMask) = typeMask ∧
          (USR = [] ∨ token.USR = [] ∨ USR = token.USR) then
        token.locationList.foldl (fun acc2 loc => intSetInsert loc.fileId acc2) acc
      else acc)
    []

/-- The token scan of `ClTokenIndexDatabase::LookupTokenPosition` over an
identifier's candidate ids. -/
def lookupPosGo (db : ClTokenIndexDatabase) (fileId : Int) (USR : Str)
    (tokenTypeMask : Nat) : List Nat → Option ClTokenPosition
  | [] => none
  | i :: rest =>
    let token := db.indexTokenMap.getValue i
    if (token.tokenTypeMask &&& tokenTypeMask) = tokenTypeMask ∧
        (USR = [] ∨ USR = token.USR) then
      match token.locationList.find?
          (fun loc => decide ((loc.tokenType &&& tokenTypeMask) = tokenTypeMask ∧
            loc.fileId = fileId)) with
      | some loc => some loc.range.beginLocation
      | none => lookupPosGo db fileId USR tokenTypeMask rest
    else lookupPosGo db fileId USR tokenTypeMask rest

/-- Models `ClTokenIndexDatabase::LookupTokenPosition`: the first location,
among identifier-matching, mask-satisfying, USR-matching tokens (wildcard
only for an empty query USR), whose own type flag satisfies the mask and
whose file id matches; `none` models the `false`/not-found return. -/
def ClTokenIndexDatabase.lookupTokenPosition (db : ClTokenIndexDatabase)
    (identifier : Str) (fileId : Int) (USR : Str) (tokenTypeMask : Nat) :
    Option ClTokenPosition :=
  lookupPosGo db fileId USR tokenTypeMask (db.indexTokenMap.getIdSet identifier)

/-- Models `ClTokenIndexDatabase::AddToken` (used during deserialization):
unconditional insert of a token under an identifier (no merge), re-keying
the file index for each of its locations, and setting the modified flag;
a no-op for an empty identifier. -/
def ClTokenIndexDatabase.addToken (db : ClTokenIndexDatabase)
    (identifier : Str) (token : ClIndexToken) : ClTokenIndexDatabase :=
  if 0 < identifier.length then
    let p := db.indexTokenMap.insert identifier token
    let ft := token.locationList.foldl
      (fun ft loc =>
        let fid := intToStr loc.fileId
        (eraseOne ft (fid, p.2)) ++ [(fid, p.2)])
      db.fileTokens
    { db with indexTokenMap := p.1, fileTokens := ft, modified := true }
  else db

/-- Models `ClTokenIndexDatabase::Clear`. Modelled from the spec: the
member-function body is not among the provided sources; the spec states it
discards all tokens and resets to an empty state while leaving the
filename database untouched. -/
def ClTokenIndexDatabase.clear (db : ClTokenIndexDatabase) : ClTokenIndexDatabase :=
  { db with indexTokenMap := ClTreeMap.empty, fileTokens := [] }

/-! Binary serialization (`WriteInt`/`WriteLongLong`/`WriteString`,
`ReadInt`/`ReadLongLong`/`ReadString` and the `WriteOut`/`ReadIn` pairs of
`ClIndexToken`, `ClFilenameDatabase` and `ClTokenIndexDatabase`, all from
clangproxy.h). Streams are byte lists consumed from the head. -/

/-- Little-endian four-byte encoding of a natural number below 2^32. -/
def encodeNat32 (n : Nat) : List Nat :=
  [n % 256, n / 256 % 256, n / 65536 % 256, n / 16777216 % 256]

/-- Models `WriteInt`: the four bytes of a C `int`, two's complement,
little-endian. -/
def encodeInt32 (v : Int) : List Nat :=
  encodeNat32 ((v.emod 4294967296).toNat)

/-- Little-endian eight-byte encoding of a natural number below 2^64. -/
def encodeNat64 (n : Nat) : List Nat :=
  encodeNat32 (n % 4294967296) ++ encodeNat32 (n / 4294967296)

/-- Models `WriteLongLong`: the eight bytes of a C `long long`, two's
complement, little-endian. -/
def encodeInt64 (v : Int) : List Nat :=
  encodeNat64 ((v.emod 18446744073709551616).toNat)

/-- Models `WriteString`: length-prefixed bytes (no terminator; a length of
zero writes just the length). -/
def writeStr (s : Str) : List Nat :=
  encodeInt32 s.length ++ s

/-- Models `ReadInt`: fails when fewer than four bytes remain (`CanRead`
false, or `LastRead() != sizeof(val)`), else decodes a two's-complement
little-endian `int` and consumes four bytes. -/
def readInt : List Nat → Option (Int × List Nat)
  | b0 :: b1 :: b2 :: b3 :: rest =>
    let n := b0 + 256 * b1 + 65536 * b2 + 16777216 * b3
    some (if n < 2147483648 then (n : Int) else (n : Int) - 4294967296, rest)
  | _ => none

/-- Models `ReadLongLong` (eight bytes, two's complement, little-endian). -/
def readLongLong : List Nat → Option (Int × List Nat)
  | b0 :: b1 :: b2 :: b3 :: b4 :: b5 :: b6 :: b7 :: rest =>
    let n := b0 + 256 * b1 + 65536 * b2 + 16777216 * b3 + 4294967296 * b4 +
      1099511627776 * b5 + 281474976710656 * b6 + 72057594037927936 * b7
    some (if n < 9223372036854775808 then (n : Int)
      else (n : Int) - 18446744073709551616, rest)
  | _ => none

/-- Models `ReadString`: reads the length prefix, returns the empty string
for a zero length, fails when no byte can be read, then takes the declared
number of bytes. A negative length makes the C++ allocate a negative-sized
buffer (undefined behaviour) and is modelled as a failure; a stream holding
fewer than the declared bytes leaves the C++ buffer partly uninitialized
(undefined contents) and is modelled as yielding just the available bytes. -/
def readString (s : List Nat) : Option (Str × List Nat) :=
  match readInt s with
  | none => none
  | some (len, rest) =>
    if len = 0 then some ([], rest)
    else if rest.isEmpty then none
    else if len < 0 then none
    else some (rest.take len.toNat, rest.drop len.toNat)

/-- Models `ClIndexToken::WriteOut` for a single location record. -/
def writeLocation (loc : ClIndexTokenLocation) : List Nat :=
  encodeInt32 loc.tokenType ++ encodeInt32 loc.fileId ++
  encodeInt32 loc.range.beginLocation.line ++
  encodeInt32 loc.range.beginLocation.column ++
  encodeInt32 loc.range.endLocation.line ++
  encodeInt32 loc.range.endLocation.column

/-- Models `ClIndexToken::WriteOut`: identifier, display name, USR, the
location list (count then records), the parent/override list (count then
string pairs), then the scope pair. -/
def writeIndexToken (t : ClIndexToken) : List Nat :=
  writeStr t.identifier ++ writeStr t.displayName ++ writeStr t.USR ++
  encodeInt32 t.locationList.length ++
  (t.locationList.map writeLocation).flatten ++
  encodeInt32 t.parentTokenList.length ++
  (t.parentTokenList.map (fun p => writeStr p.1 ++ writeStr p.2)).flatten ++
  writeStr t.scope.1 ++ writeStr t.scope.2

/-- The location-reading loop of `ClIndexToken::ReadIn`: reads the given
number of six-int records, appending each location and OR-ing its type into
the accumulated token's mask (the loop count is the stored `int`
reinterpreted as `unsigned int` by the C++ cast). -/
def readLocations : Nat → ClIndexToken → List Nat → Option (ClIndexToken × List Nat)
  | 0, tok, s => some (tok, s)
  | n + 1, tok, s =>
    match readInt s with
    | none => none
    | some (typ, s1) =>
      match readInt s1 with
      | none => none
      | some (fileId, s2) =>
        match readInt s2 with
        | none => none
        | some (beginLine, s3) =>
          match readInt s3 with
          | none => none
          | some (beginColumn, s4) =>
            match readInt s4 with
            | none => none
            | some (endLine, s5) =>
              match readInt s5 with
              | none => none
              | some (endColumn, s6) =>
                let loc : ClIndexTokenLocation :=
                  ⟨typ.toNat, fileId,
                    ⟨⟨beginLine, beginColumn⟩, ⟨endLine, endColumn⟩⟩⟩
                readLocations n
                  { tok with
                    locationList := tok.locationList ++ [loc],
                    tokenTypeMask := tok.tokenTypeMask ||| typ.toNat } s6

/-- The parent/override-reading loop of `ClIndexToken::ReadIn` (string
pairs; the loop count is the stored `int` reinterpreted as `unsigned int`). -/
def readParents : Nat → ClIndexToken → List Nat → Option (ClIndexToken × List Nat)
  | 0, tok, s => some (tok, s)
  | n + 1, tok, s =>
    match readString s with
    | none => none
    | some (identifier, s1) =>
      match readString s1 with
      | none => none
      | some (USR, s2) =>
        readParents n
          { tok with parentTokenList := tok.parentTokenList ++ [(identifier, USR)] } s2

/-- Models `ClIndexToken::ReadIn`: clears the location and parent lists of
the passed token (the aggregate type mask is NOT cleared — it keeps
whatever the passed token accumulated), reads identifier, display name and
USR, the location list, the parent list, then the scope pair. -/
def readIndexToken (tok : ClIndexToken) (s : List Nat) :
    Option (ClIndexToken × List Nat) :=
  let tok0 : ClIndexToken := { tok with locationList := [], parentTokenList := [] }
  match readString s with
  | none => none
  | some (identifier, s1) =>
    match readString s1 with
    | none => none
    | some (displayName, s2) =>
      match readString s2 with
      | none => none
      | some (USR, s3) =>
        match readInt s3 with
        | none => none
        | some (locCount, s4) =>
          let tokNamed : ClIndexToken :=
            { tok0 with identifier := identifier, displayName := displayName, USR := USR }
          match readLocations ((locCount.emod 4294967296).toNat) tokNamed s4 with
          | none => none
          | some (tok1, s5) =>
            match readInt s5 with
            | none => none
            | some (parentCount, s6) =>
              match readParents ((parentCount.emod 4294967296).toNat) tok1 s6 with
              | none => none
              | some (tok2, s7) =>
                match readString s7 with
                | none => none
                | some (scopeName, s8) =>
                  match readString s8 with
                  | none => none
                  | some (scopeUSR, s9) =>
                    some ({ tok2 with scope := (scopeName, scopeUSR) }, s9)

/-- Models `ClFilenameDatabase::WriteOut`: entry count, then each entry's
path and timestamp in id order. -/
def writeFilenameDB (fdb : ClTreeMap ClFilenameEntry) : List Nat :=
  encodeInt32 fdb.data.length ++
  (fdb.data.map (fun e => writeStr e.filename ++ encodeInt64 e.timestamp)).flatten

/-- The entry-reading loop of `ClFilenameDatabase::ReadIn` (the loop count
comes from a signed comparison, so a negative count reads nothing). -/
def readFileEntries : Nat → ClTreeMap ClFilenameEntry → List Nat →
    Option (ClTreeMap ClFilenameEntry × List Nat)
  | 0, fdb, s => some (fdb, s)
  | n + 1, fdb, s =>
    match readString s with
    | none => none
    | some (filename, s1) =>
      match readLongLong s1 with
      | none => none
      | some (ts, s2) =>
        readFileEntries n (fdb.insert filename ⟨filename, ts⟩).1 s2

/-- Models `ClFilenameDatabase::ReadIn`: entry count then that many
(path, timestamp) records, each inserted into the filename table. -/
def readFilenameDB (fdb : ClTreeMap ClFilenameEntry) (s : List Nat) :
    Option (ClTreeMap ClFilenameEntry × List Nat) :=
  match readInt s with
  | none => none
  | some (packetCount, s1) => readFileEntries packetCount.toNat fdb s1

/-- The per-bucket token loop of `ClTokenIndexDatabase::ReadIn`: the SAME
`ClIndexToken` local is passed through all iterations of one bucket, so
`ClIndexToken::ReadIn`'s unreset mask accumulates across the bucket's
tokens; every token read is handed to `AddToken`. -/
def readBucketTokens : Nat → Str → ClIndexToken → ClTokenIndexDatabase →
    List Nat → Option (ClTokenIndexDatabase × List Nat)
  | 0, _, _, db, s => some (db, s)
  | n + 1, identifier, tok, db, s =>
    match readIndexToken tok s with
    | none => none
    | some (tok2, s2) =>
      readBucketTokens n identifier tok2 (db.addToken identifier tok2) s2

/-- The bucket loop of the tokens packet of `ClTokenIndexDatabase::ReadIn`:
each bucket reads an identifier, declares a fresh `ClIndexToken` local,
reads a token count and runs the per-bucket loop (signed loop counts). -/
def readTokenBuckets : Nat → ClTokenIndexDatabase → List Nat →
    Option (ClTokenIndexDatabase × List Nat)
  | 0, db, s => some (db, s)
  | n + 1, db, s =>
    match readString s with
    | none => none
    | some (identifier, s1) =>
      match readInt s1 with
      | none => none
      | some (tokenCount, s2) =>
        match readBucketTokens tokenCount.toNat identifier default db s2 with
        | none => none
        | some (db2, s3) => readTokenBuckets n db2 s3

/-- The packet loop of `ClTokenIndexDatabase::ReadIn`: while bytes remain,
read a packet type; 0 terminates successfully, 1 reads the filename table,
2 reads the token table, and any other value is skipped by the `switch`.
The fuel argument only serves Lean's termination (each iteration consumes
at least the four packet-type bytes, so fuel `length + 1` is never
exhausted before the stream is). -/
def readLoop : Nat → ClTokenIndexDatabase → List Nat → Bool × ClTokenIndexDatabase
  | 0, db, _ => (true, db)
  | fuel + 1, db, s =>
    if s.isEmpty then (true, db)
    else
      match readInt s with
      | none => (false, db)
      | some (packetType, s1) =>
        if packetType = 0 then (true, db)
        else if packetType = 1 then
          match readFilenameDB db.fileDB s1 with
          | none => (false, db)
          | some (fdb, s2) => readLoop fuel { db with fileDB := fdb } s2
        else if packetType = 2 then
          match readInt s1 with
          | none => (false, db)
          | some (packetCount, s2) =>
            match readTokenBuckets packetCount.toNat db s2 with
            | none => (false, db)
            | some (db2, s3) => readLoop fuel db2 s3
        else readLoop fuel db s1

/-- Models `ClTokenIndexDatabase::ReadIn`: reads (and ignores) the four
magic bytes, requires format version 5 and the two recorded native-library
version integers to equal the runtime constants passed as `major`/`minor`
(`CINDEX_VERSION_MAJOR`/`CINDEX_VERSION_MINOR`, compile-time constants of
the external native library), clears the target database, then runs the
packet loop. Returns the success flag and the resulting database. -/
def ClTokenIndexDatabase.readIn (major minor : Int) (db : ClTokenIndexDatabase)
    (s : List Nat) : Bool × ClTokenIndexDatabase :=
  let s0 := s.drop 4
  match readInt s0 with
  | none => (false, db)
  | some (version, s1) =>
    if version = 5 then
      match readInt s1 with
      | none => (false, db)
      | some (maj, s2) =>
        match readInt s2 with
        | none => (false, db)
        | some (mnr, s3) =>
          if maj = major then
            if mnr = minor then readLoop (s3.length + 1) db.clear s3
            else (false, db)
          else (false, db)
    else (false, db)

/-- Models `ClTokenIndexDatabase::WriteOut`: magic, version 5, the two
native-library version integers, a filenames packet, a tokens packet (all
identifiers in ascending order, each bucket's tokens in ascending id
order), then a zero terminator packet. -/
def ClTokenIndexDatabase.writeOut (major minor : Int)
    (db : ClTokenIndexDatabase) : List Nat :=
  let keys := db.indexTokenMap.getKeySet
  [67, 108, 68, 98] ++ encodeInt32 5 ++ encodeInt32 major ++ encodeInt32 minor ++
  encodeInt32 1 ++ writeFilenameDB db.fileDB ++
  encodeInt32 2 ++ encodeInt32 keys.length ++
  (keys.map (fun key =>
    let ids := db.indexTokenMap.getIdSet key
    writeStr key ++ encodeInt32 ids.length ++
    (ids.map (fun i => writeIndexToken (db.indexTokenMap.getValue i))).flatten)).flatten ++
  encodeInt32 0

/-! The per-translation-unit token database (`ClTokenDatabase`,
clangproxy.h) and the translation-unit wrapper (translationunit source
file). The native parsing library is an external boundary; its behaviour
at each call site is supplied by a `NativeLib` record, and every wrapper
operation additionally reports whether a native call was made. -/

/-- A per-translation-unit abstract token (`ClAbstractToken`). Modelled
from the spec for the field list (the declaring header is not among the
provided sources); the default value models the C++ default constructor of
a blank token, whose file id is the not-found sentinel `-1` (`wxNOT_FOUND`),
per the spec's "cleared (fileId reset to not-found)". -/
structure ClAbstractToken where
  tokenType : Nat
  fileId : Int
  range : ClTokenRange
  identifier : Str
  displayName : Str
  USR : Str
  tokenHash : Nat
  parentTokenList : List (Str × Str)
  scope : Str × Str
deriving DecidableEq, Repr

instance : Inhabited ClAbstractToken :=
  ⟨⟨ClTokenType_Unknown, -1, default, [], [], [], 0, [], ([], [])⟩⟩

/-- The per-translation-unit token database (`ClTokenDatabase`): the token
map and the stringified-file-id-keyed token-id index (again the
`ClTreeMap<int>` specialization, modelled as its association list). The
owned index-database pointer is not represented: none of the modelled
operations below consults it. -/
structure ClTokenDatabase where
  tokens : ClTreeMap ClAbstractToken
  fileTokens : List (Str × Nat)
deriving DecidableEq, Repr

/-- An empty per-translation-unit token database. -/
def emptyTokenDB : ClTokenDatabase := ⟨ClTreeMap.empty, []⟩

/-- Models `ClTokenDatabase::GetTokenId`: linear scan of the identifier's
candidates; a match requires hash equality, type equality unless the
caller passed `Unknown`, and file equality unless the caller passed the
not-found sentinel; `none` models the `wxNOT_FOUND` return. -/
def ClTokenDatabase.getTokenId (db : ClTokenDatabase) (identifier : Str)
    (fileId : Int) (tokenType : Nat) (tokenHash : Nat) : Option Nat :=
  (db.tokens.getIdSet identifier).find? (fun i =>
    db.tokens.hasValue i &&
      (let tok := db.tokens.getValue i
       tok.tokenHash == tokenHash &&
         (tok.tokenType == tokenType || tokenType == ClTokenType_Unknown) &&
         (tok.fileId == fileId || fileId == -1)))

/-- Models `ClTokenDatabase::GetToken` (by value; the caller must pass a
valid id, asserted in the C++). -/
def ClTokenDatabase.getToken (db : ClTokenDatabase) (tId : Nat) : ClAbstractToken :=
  db.tokens.getValue tId

/-- Models `ClTokenDatabase::InsertToken`: reuse an existing id found by
(identifier, file, type, hash), else append to the token map and index the
new id under the identifier and the stringified file id. -/
def ClTokenDatabase.insertToken (db : ClTokenDatabase) (token : ClAbstractToken) :
    ClTokenDatabase × Nat :=
  match db.getTokenId token.identifier token.fileId token.tokenType token.tokenHash with
  | some tId => (db, tId)
  | none =>
    let p := db.tokens.insert token.identifier token
    (⟨p.1, db.fileTokens ++ [(intToStr token.fileId, p.2)]⟩, p.2)

/-- Models `ClTokenDatabase::UpdateToken` (clangproxy.h): the C++ fetches
the stored token into a BY-VALUE local (`ClAbstractToken tokenRef =
m_pTokens->GetValue(freeTokenId);` — no reference), removes the
(identifier, id) association from the identifier index, asserts that the
fetched token's file id is the not-found sentinel, assigns the new token's
fields to the LOCAL COPY (which never reaches the value table), and
inserts the id under the new token's stringified file id. The returned
Bool is the assertion's condition. -/
def ClTokenDatabase.updateToken (db : ClTokenDatabase) (freeTokenId : Nat)
    (token : ClAbstractToken) : ClTokenDatabase × Bool :=
  let tokenRef := db.tokens.getValue freeTokenId
  let tree2 := eraseOne db.tokens.tree (tokenRef.identifier, freeTokenId)
  let assertOk := decide (tokenRef.fileId = -1)
  (⟨⟨tree2, db.tokens.data⟩,
    db.fileTokens ++ [(intToStr token.fileId, freeTokenId)]⟩, assertOk)

/-- Models `ClTokenDatabase::RemoveToken`: fetch the old token, remove the
(old file id, token id) association from the file index, then call
`UpdateToken` with a default-constructed blank token. The returned Bool
propagates `UpdateToken`'s assertion condition. -/
def ClTokenDatabase.removeToken (db : ClTokenDatabase) (tokenId : Nat) :
    ClTokenDatabase × Bool :=
  let oldToken := db.getToken tokenId
  let key := intToStr oldToken.fileId
  let db1 : ClTokenDatabase := ⟨db.tokens, eraseOne db.fileTokens (key, tokenId)⟩
  db1.updateToken tokenId default

/-- Completion-string chunk kinds: only `TypedText` is distinguished by the
modelled code (`HashToken` and the AST visitor); every other native chunk
kind behaves alike there. -/
inductive ClChunkKind where
  | typedText : ClChunkKind
  | otherKind : ClChunkKind
deriving DecidableEq, Repr

/-- One completion-string chunk: its kind and the bytes of its text (the C
string returned by the native library; reading stops at a zero byte). -/
structure ClCompletionChunk where
  kind : ClChunkKind
  text : List Nat
deriving DecidableEq, Repr

/-- One step of the hash loop `hVal ^= *pCh; hVal *= 16777619u;`. The
byte read through a (signed) `char` pointer is sign-extended by the
`unsigned ^= char` conversion on the targeted platforms, and the 32-bit
multiplication wraps. -/
def fnvStep (h b : Nat) : Nat :=
  ((h ^^^ (if b < 128 then b else 4294967040 + b)) * 16777619) % 4294967296

/-- Models `HashToken` (translation-unit wrapper source): starting from the
basis 2166136261, every chunk's C-string bytes are folded with `fnvStep`;
for a `TypedText` chunk the identifier out-parameter is assigned the
chunk's text with a leading tilde (byte 126) stripped, but the hash loop
starts from the UNTOUCHED pointer, so the tilde byte is hashed. Returns
(hash, identifier). -/
def HashToken (chunks : List ClCompletionChunk) : Nat × Str :=
  chunks.foldl
    (fun acc chunk =>
      let bytes := chunk.text.takeWhile (fun b => decide (b ≠ 0))
      let ident :=
        if chunk.kind = ClChunkKind.typedText then
          match bytes with
          | 126 :: rest => rest
          | _ => bytes
        else acc.2
      (bytes.foldl fnvStep acc.1, ident))
    (2166136261, [])

/-- One function-scope entry (`ClFunctionScope`): display name, enclosing
scope name, position. Modelled from the spec (declaring header not among
the provided sources). -/
structure ClFunctionScope where
  functionName : Str
  scopeName : Str
  startLocation : ClTokenPosition
deriving DecidableEq, Repr

/-- The per-file function-scope map (`ClFunctionScopeMap`). -/
abbrev ClFunctionScopeMap := List (Int × List ClFunctionScope)

/-- A diagnostic (`ClDiagnostic`). Modelled from the spec field list
(declaring header not among the provided sources); here it only needs an
identity. -/
structure ClDiagnostic where
  line : Int
  beginColumn : Int
  endColumn : Int
  severity : Nat
  filename : Str
  message : Str
deriving DecidableEq, Repr

/-- The behaviour of the external native parsing library at the call sites
the wrapper uses: the reparse return code, the current clock, the cursor
resolved at a location, the completion-result handle, the file ids the
inclusions callback resolves (in visit order), the expanded diagnostics
for a file, and the composite effect of the AST child visit on the token
database (returning the updated database, the collected function-scope
map and the token count). -/
structure NativeLib where
  reparseResult : Int
  now : Int
  cursorAt : Str → ClTokenPosition → Option Nat
  codeCompleteResult : Option Nat
  inclusionIds : List Int
  diagnosticsFor : Str → List ClDiagnostic
  astWalk : ClTokenDatabase → ClTokenDatabase × ClFunctionScopeMap × Nat

/-- The translation-unit wrapper state (`ClTranslationUnit`): numeric id,
owning file id, contributed files, the native parse handle (`none` models
the null handle), the cached completion result, the last completion
position, the pool-occupied flag, the last-parsed timestamp and the
per-file function-scope map. -/
structure ClTranslationUnit where
  id : Int
  fileId : Int
  files : List Int
  clTranslUnit : Option Nat
  lastCC : Option Nat
  lastPos : ClTokenPosition
  occupied : Bool
  lastParsed : Int
  functionScopes : ClFunctionScopeMap

/-- Models `ClTranslationUnit::Reparse`: a null handle returns immediately;
otherwise the native reparse runs, and a non-zero return disposes the
handle and zeroes it (leaving everything else untouched), while success
clears the cached completion result and refreshes the timestamp. The Bool
reports whether the native reparse was invoked. -/
def ClTranslationUnit.reparse (native : NativeLib) (tu : ClTranslationUnit) :
    ClTranslationUnit × Bool :=
  match tu.clTranslUnit with
  | none => (tu, false)
  | some _ =>
    if native.reparseResult ≠ 0 then ({ tu with clTranslUnit := none }, true)
    else ({ tu with lastCC := none, lastParsed := native.now }, true)

/-- Models `ClTranslationUnit::GetTokenAt`: a null handle yields the null
cursor (`none`) without any native call; otherwise the native cursor
resolution runs. -/
def ClTranslationUnit.getTokenAt (native : NativeLib) (tu : ClTranslationUnit)
    (filename : Str) (location : ClTokenPosition) : Option Nat × Bool :=
  match tu.clTranslUnit with
  | none => (none, false)
  | some _ => (native.cursorAt filename location, true)

/-- Models `ClTranslationUnit::CodeCompleteAt`: a null handle returns a
null result pointer without any native call; otherwise the previous cached
result is disposed, the native completion runs, its result is cached and
the query position recorded. Returns the new state, the result handle and
whether a native call was made. -/
def ClTranslationUnit.codeCompleteAt (native : NativeLib) (tu : ClTranslationUnit)
    (_completeFilename : Str) (completeLocation : ClTokenPosition) :
    ClTranslationUnit × Option Nat × Bool :=
  match tu.clTranslUnit with
  | none => (tu, none, false)
  | some _ =>
    ({ tu with lastCC := native.codeCompleteResult, lastPos := completeLocation },
      native.codeCompleteResult, true)

/-- Models `ClTranslationUnit::GetDiagnostics`: a null handle returns with
the passed diagnostics vector untouched and no native call; otherwise the
native diagnostic set is expanded and appended. -/
def ClTranslationUnit.getDiagnostics (native : NativeLib) (tu : ClTranslationUnit)
    (filename : Str) (diagnostics : List ClDiagnostic) :
    List ClDiagnostic × Bool :=
  match tu.clTranslUnit with
  | none => (diagnostics, false)
  | some _ => (diagnostics ++ native.diagnosticsFor filename, true)

/-- Adjacent-duplicate compaction: the sequence `std::unique` moves to the
front of the range (computed from the right; the deduplication of a tail
keeps the tail's head, so comparing against it collapses runs exactly as
the left-to-right algorithm does). -/
def adjDedup : List Int → List Int
  | [] => []
  | x :: xs =>
    match adjDedup xs with
    | [] => [x]
    | y :: ys => if x = y then y :: ys else x :: y :: ys

/-- Models the net effect of `std::unique(v.begin(), v.end())` on the
vector when its return value is discarded and no `erase` follows (as in
`ClTranslationUnit::ProcessAllTokens`): the adjacent-deduplicated sequence
occupies the front, the vector keeps its length, and the positions past
the compacted front retain their previous values (the behaviour of the
in-place forward-iterator algorithm; the standard leaves those trailing
values unspecified, the model fixes the values libstdc++ leaves). -/
def cppUnique (l : List Int) : List Int :=
  adjDedup l ++ l.drop (adjDedup l).length

/-- Models `ClTranslationUnit::ProcessAllTokens`: a null handle returns
with all three out-parameters untouched and no native call. Otherwise the
inclusions callback appends the resolved file id of every visited file to
the include list, the unit's own file id is pushed, the list is sorted,
`std::unique` is applied WITHOUT using its result (so the vector is never
shrunk), and the AST child visit fills the token database and the
function-scope map. -/
def ClTranslationUnit.processAllTokens (native : NativeLib)
    (tu : ClTranslationUnit) (database : ClTokenDatabase)
    (includeFileList : List Int) (functionScopes : ClFunctionScopeMap) :
    (ClTokenDatabase × List Int × ClFunctionScopeMap) × Bool :=
  match tu.clTranslUnit with
  | none => ((database, includeFileList, functionScopes), false)
  | some _ =>
    let visited := includeFileList ++ native.inclusionIds ++ [tu.fileId]
    let outList := cppUnique (sortByB (fun a b => decide (a < b)) visited)
    let walk := native.astWalk database
    ((walk.1, outList, walk.2.1), true)

/-- Completion-candidate categories (`ClTokenCategory`). Modelled from the
spec (declaring header not among the provided sources): the categories the
completion job's switch distinguishes, plus a representative for all
others. -/
inductive ClTokenCategory where
  | tcClass : ClTokenCategory
  | tcCtorPublic : ClTokenCategory
  | tcDtorPublic : ClTokenCategory
  | tcFuncPublic : ClTokenCategory
  | tcVarPublic : ClTokenCategory
  | tcEnum : ClTokenCategory
  | tcTypedef : ClTokenCategory
  | tcOther : ClTokenCategory
deriving DecidableEq, Repr

/-- A completion candidate (`ClToken`): identifier text, the opaque id into
the native result set, the weight and the category. Modelled from the spec
field list (declaring header not among the provided sources). -/
structure ClToken where
  identifier : Str
  id : Nat
  weight : Int
  category : ClTokenCategory
deriving DecidableEq, Repr

/-- Models the result-refinement loop of `CodeCompleteAtJob::Execute`
(clangproxy.h): every candidate of the native result list stays in the
job's final result vector (`m_pResults->swap(results)` at the end); the
switch refines the category of class/function/variable/enum/typedef
candidates through `ClangProxy::RefineTokenType` (whose body lives outside
the provided sources and is passed here as the oracle `refine`), and
constructor/destructor candidates fall into the same refinement cases
unless the include-constructors option is off, in which case `continue`
skips ONLY the refinement for them — they are not removed. -/
def codeCompleteAtJobExecute (refine : Nat → ClTokenCategory → ClTokenCategory)
    (includeCtors : Bool) (results : List ClToken) : List ClToken :=
  results.map (fun tkn =>
    match tkn.category with
    | ClTokenCategory.tcCtorPublic =>
      if includeCtors then { tkn with category := refine tkn.id tkn.category } else tkn
    | ClTokenCategory.tcDtorPublic =>
      if includeCtors then { tkn with category := refine tkn.id tkn.category } else tkn
    | ClTokenCategory.tcClass => { tkn with category := refine tkn.id tkn.category }
    | ClTokenCategory.tcFuncPublic => { tkn with category := refine tkn.id tkn.category }
    | ClTokenCategory.tcVarPublic => { tkn with category := refine tkn.id tkn.category }
    | ClTokenCategory.tcEnum => { tkn with category := refine tkn.id tkn.category }
    | ClTokenCategory.tcTypedef => { tkn with category := refine tkn.id tkn.category }
    | ClTokenCategory.tcOther => tkn)

/-! Concrete instances used by the claim theorems below. -/

/-- A sample range (line 1, columns 1 to 2). -/
def rangeA : ClTokenRange := ⟨⟨1, 1⟩, ⟨1, 2⟩⟩

/-- A second sample range (line 2, columns 1 to 2). -/
def rangeB : ClTokenRange := ⟨⟨2, 1⟩, ⟨2, 2⟩⟩

/-- A populated index database: identifier `a` carries two tokens with
distinct USRs `u` and `v` and distinct type masks (an overloaded name seen
as a function in one declaration and a variable in another) — the shape
`StoreIndexes` produces for any identifier used with two USRs. -/
def c1DB : ClTokenIndexDatabase :=
  (emptyIndexDB.updateToken [97] [65] 0 [117] ClTokenType_FuncDecl rangeA []
    ([], [])).updateToken [97] [66] 0 [118] ClTokenType_VarDecl rangeA [] ([], [])

/-- Writing `c1DB` out and reading it back into a fresh database, with
matching native-library version constants (arbitrarily 0 and 35). -/
def c1RoundTrip : Bool × ClTokenIndexDatabase :=
  ClTokenIndexDatabase.readIn 0 35 emptyIndexDB (c1DB.writeOut 0 35)

/-- A stream whose first four bytes are not the `ClDb` magic but whose
remainder is a well-formed database image (version 5, native versions
0 and 35, a terminator packet). -/
def c3Stream : List Nat :=
  [88, 88, 88, 88] ++ encodeInt32 5 ++ encodeInt32 0 ++ encodeInt32 35 ++
    encodeInt32 0

/-- An index database whose single token has two consecutive location
entries for file 5 (the state two `UpdateToken` calls with the same file
and different ranges produce). -/
def c4DB : ClTokenIndexDatabase :=
  (emptyIndexDB.updateToken [97] [65] 5 [117] ClTokenType_FuncDecl rangeA []
    ([], [])).updateToken [97] [65] 5 [117] ClTokenType_FuncDecl rangeB [] ([], [])

/-- A native-library behaviour under which the inclusions callback resolves
file ids 0 (the main file) and 1 (a header), the reparse succeeds, and the
AST walk finds nothing. -/
def c5Native : NativeLib :=
  ⟨0, 0, fun _ _ => none, none, [0, 1], fun _ => [], fun db => (db, [], 0)⟩

/-- A live translation unit for file id 0. -/
def c5TU : ClTranslationUnit :=
  ⟨0, 0, [0], some 1, none, ⟨1, 1⟩, false, 0, []⟩

/-- A completion string consisting of one `TypedText` chunk reading `~A`
(a destructor name). -/
def c6Chunks : List ClCompletionChunk :=
  [⟨ClChunkKind.typedText, [126, 65]⟩]

/-- The hash exactly as claim C6 states it: the 32-bit FNV-1a-style hash
with basis 2166136261 and multiplier 16777619 folded over the UTF-8 bytes
of all completion-string chunks, where a leading tilde of a destructor
name (a `TypedText` chunk starting with byte 126) is stripped from the
bytes that are hashed. Stated from the claim for comparison with the
source-translated `HashToken`. -/
def hashTokenClaimC6 (chunks : List ClCompletionChunk) : Nat :=
  chunks.foldl
    (fun h chunk =>
      let hashed :=
        if chunk.kind = ClChunkKind.typedText then
          match chunk.text with
          | 126 :: rest => rest
          | _ => chunk.text
        else chunk.text
      hashed.foldl (fun h2 b => ((h2 ^^^ b) * 16777619) % 4294967296) h)
    2166136261

/-- Folding `fnvStep` over a byte list from a starting hash value. -/
def fnvFold (h : Nat) (bytes : List Nat) : Nat :=
  bytes.foldl fnvStep h

/-- A native-library behaviour whose reparse fails (non-zero return). -/
def c7Native : NativeLib :=
  ⟨1, 0, fun _ _ => none, none, [], fun _ => [], fun db => (db, [], 0)⟩

/-- A live translation unit about to suffer the failing reparse. -/
def c7TU : ClTranslationUnit :=
  ⟨0, 0, [0], some 1, none, ⟨1, 1⟩, false, 0, []⟩

/-- A per-translation-unit token: a function declaration in file 0. -/
def c8Tok : ClAbstractToken :=
  ⟨ClTokenType_FuncDecl, 0, rangeA, [120], [120], [], 7, [], ([], [])⟩

/-- A per-translation-unit database holding `c8Tok` at id 0. -/
def c8DB : ClTokenDatabase := (emptyTokenDB.insertToken c8Tok).1

/-- A per-translation-unit database whose slot 0 holds a genuinely blank
(previously cleared) token, unreferenced by the identifier index. -/
def c8Blank : ClTokenDatabase := ⟨⟨[], [default]⟩, []⟩

/-- An index database whose stored token already holds the same location
twice: `AddToken` (the deserialization path) inserts tokens verbatim, so a
read-in stream carrying a duplicated location record produces exactly this
state. -/
def c9DupDB : ClTokenIndexDatabase :=
  emptyIndexDB.addToken [97]
    ⟨[97], [65], [117], 2, [⟨2, 0, rangeA⟩, ⟨2, 0, rangeA⟩], [], ([], [])⟩

/-- A completion candidate in the public-constructor category. -/
def c2CtorTok : ClToken := ⟨[97], 0, 0, ClTokenCategory.tcCtorPublic⟩

/-- An index database whose single token `a` has an EMPTY stored USR and a
location in file 7. -/
def c10DB : ClTokenIndexDatabase :=
  emptyIndexDB.updateToken [97] [65] 7 [] ClTokenType_FuncDecl rangeA [] ([], [])

/-! Claim theorems. -/

set_option maxRecDepth 8192 in
/-- Claim C1 (code bug): the write-out/read-in round trip does NOT preserve
the aggregate type mask. `c1DB` holds identifier `a` with (USR `u`, mask
FuncDecl=2) and (USR `v`, mask VarDecl=4); reading the written stream back
succeeds, but because `ClTokenIndexDatabase::ReadIn` declares one
`ClIndexToken` local per identifier bucket and `ClIndexToken::ReadIn`
never resets `tokenTypeMask`, the second token of the bucket comes back
with mask 6 = 2|4 instead of 4. -/
theorem readIn_roundTrip_mask_accumulation :
    c1RoundTrip.1 = true ∧
    (c1DB.indexTokenMap.data.map fun t => (t.USR, t.tokenTypeMask)) =
      [([117], 2), ([118], 4)] ∧
    (c1RoundTrip.2.indexTokenMap.data.map fun t => (t.USR, t.tokenTypeMask)) =
      [([117], 2), ([118], 6)] := by
  decide

/-- Claim C2 counterexample: with the include-constructors option off, a
candidate in the public-constructor category is NOT removed from the
job's final result vector — the result still contains it, refuting the
claim that such candidates are dropped entirely. -/
theorem codeComplete_ctor_retained_cex :
    c2CtorTok.category = ClTokenCategory.tcCtorPublic ∧
    codeCompleteAtJobExecute (fun _ c => c) false [c2CtorTok] = [c2CtorTok] := by
  decide

/-- Claim C2 as amended: with the include-constructors option off, the
result vector keeps its length, and every constructor/destructor-category
candidate passes through entirely unchanged (it is only skipped by the
category-refinement pass, not removed). -/
theorem codeComplete_ctor_skipped_not_removed
    (refine : Nat → ClTokenCategory → ClTokenCategory) (results : List ClToken)
    (d : ClToken) (i : Nat) (hi : i < results.length)
    (hcat : (results.getD i d).category = ClTokenCategory.tcCtorPublic ∨
      (results.getD i d).category = ClTokenCategory.tcDtorPublic) :
    (codeCompleteAtJobExecute refine false results).length = results.length ∧
    (codeCompleteAtJobExecute refine false results).getD i d = results.getD i d := by
  unfold codeCompleteAtJobExecute
  refine ⟨List.length_map _ _, ?_⟩
  rw [List.getD_eq_getElem _ _ (by simpa using hi), List.getElem_map,
    List.getD_eq_getElem _ _ hi] at *
  rcases hcat with h | h <;> rw [h] <;> simp [h]

/-- Witness for the amended claim C2 theorem at a concrete input. -/
theorem codeComplete_ctor_skipped_not_removed_witness :
    (codeCompleteAtJobExecute (fun _ c => c) false [c2CtorTok]).length = 1 ∧
    (codeCompleteAtJobExecute (fun _ c => c) false [c2CtorTok]).getD 0 c2CtorTok =
      [c2CtorTok].getD 0 c2CtorTok :=
  codeComplete_ctor_skipped_not_removed (fun _ c => c) [c2CtorTok] c2CtorTok 0
    (by decide) (Or.inl (by decide))

/-- Claim C3 counterexample: a stream whose first four bytes are not
`ClDb` but whose remainder is well-formed loads SUCCESSFULLY —
`ClTokenIndexDatabase::ReadIn` reads the four magic bytes into a buffer
and never compares them. -/
theorem readIn_wrong_magic_succeeds_cex :
    c3Stream.take 4 ≠ [67, 108, 68, 98] ∧
    (ClTokenIndexDatabase.readIn 0 35 emptyIndexDB c3Stream).1 = true := by
  decide

/-- Claim C3 as amended: `ReadIn` consumes the first four bytes of the
stream without validating them — reading any stream is indistinguishable
from reading the same stream with its first four bytes replaced by the
`ClDb` magic; failure can only arise from the version checks or read
errors in the remainder. -/
theorem readIn_ignores_magic_bytes (b0 b1 b2 b3 : Nat) (rest : List Nat)
    (major minor : Int) (db : ClTokenIndexDatabase) :
    ClTokenIndexDatabase.readIn major minor db (b0 :: b1 :: b2 :: b3 :: rest) =
      ClTokenIndexDatabase.readIn major minor db (67 :: 108 :: 68 :: 98 :: rest) :=
  rfl

/-- Claim C4 (code bug): after `RemoveFileTokens(5)` on a token with two
consecutive location entries for file 5, the second entry SURVIVES — the
erase loop assigns the successor iterator and then the loop increment
skips it. The file's own token-id index entry is cleared as claimed. -/
theorem removeFileTokens_consecutive_location_survives :
    ((c4DB.indexTokenMap.getValue 0).locationList.map fun l => l.fileId) =
      [5, 5] ∧
    (((c4DB.removeFileTokens 5).indexTokenMap.getValue 0).locationList.map
      fun l => l.fileId) = [5] ∧
    (c4DB.removeFileTokens 5).fileTokens = [] := by
  decide

/-- Claim C5 (code bug): the include-file-id list `ProcessAllTokens`
produces is NOT duplicate-free: with the inclusions callback resolving
ids [0, 1] (the main file id 0 is itself visited) and the unit's own file
id 0 pushed afterwards, the result is [0, 1, 1] — `std::unique`'s return
value is discarded and the vector is never shrunk, so the id 1 appears
twice. -/
theorem processAllTokens_include_list_keeps_duplicate :
    (c5TU.processAllTokens c5Native emptyTokenDB [] []).1.2.1 = [0, 1, 1] ∧
    ((c5TU.processAllTokens c5Native emptyTokenDB [] []).1.2.1).count 1 = 2 := by
  decide

/-- Claim C6 counterexample: on the destructor completion string `~A`, the
hash the code computes differs from the claimed hash over
tilde-stripped bytes — `HashToken` hashes the tilde byte too (stripping
only affects the identifier out-parameter). -/
theorem hashToken_tilde_hashed_cex :
    (HashToken c6Chunks).1 ≠ hashTokenClaimC6 c6Chunks ∧
    (HashToken c6Chunks).2 = [65] := by
  decide

/-- Claim C6 as amended: `HashToken` returns the FNV-1a-style hash (basis
2166136261, multiplier 16777619, with the signed-char sign extension of
`fnvStep`) folded over the UNTOUCHED bytes of all completion-string
chunks — no tilde is stripped from the hashed bytes; the tilde stripping
applies only to the derived identifier. -/
theorem hashToken_folds_unstripped_bytes (chunks : List ClCompletionChunk) :
    (HashToken chunks).1 =
      fnvFold 2166136261
        ((chunks.map fun c => c.text.takeWhile fun b => decide (b ≠ 0)).flatten) := by
  suffices h : ∀ (cs : List ClCompletionChunk) (h0 : Nat) (id0 : Str),
      (cs.foldl
        (fun acc chunk =>
          let bytes := chunk.text.takeWhile (fun b => decide (b ≠ 0))
          let ident :=
            if chunk.kind = ClChunkKind.typedText then
              match bytes with
              | 126 :: rest => rest
              | _ => bytes
            else acc.2
          (bytes.foldl fnvStep acc.1, ident)) (h0, id0)).1 =
      fnvFold h0 ((cs.map fun c => c.text.takeWhile fun b => decide (b ≠ 0)).flatten) by
    exact h chunks 2166136261 []
  intro cs
  induction cs with
  | nil => intro h0 id0; rfl
  | cons c cs ih =>
    intro h0 id0
    simp only [List.foldl_cons, List.map_cons, List.flatten_cons]
    rw [ih]
    unfold fnvFold
    rw [List.foldl_append]

/-- Claim C7: a failed reparse disposes and zeroes the native handle, and
every subsequent operation on the unit observes the null handle and
returns its null-cursor/null-result/unchanged-output value without
invoking the native library (the Bool component of each operation reports
whether a native call was made). -/
theorem reparse_failure_disables_unit (native : NativeLib)
    (tu : ClTranslationUnit) (hlive : tu.clTranslUnit ≠ none)
    (hfail : native.reparseResult ≠ 0) :
    (tu.reparse native).1.clTranslUnit = none ∧
    (tu.reparse native).2 = true ∧
    (∀ (native2 : NativeLib) (filename : Str) (location : ClTokenPosition),
      (tu.reparse native).1.getTokenAt native2 filename location = (none, false)) ∧
    (∀ (native2 : NativeLib) (filename : Str) (location : ClTokenPosition),
      (tu.reparse native).1.codeCompleteAt native2 filename location =
        ((tu.reparse native).1, none, false)) ∧
    (∀ (native2 : NativeLib) (filename : Str) (ds : List ClDiagnostic),
      (tu.reparse native).1.getDiagnostics native2 filename ds = (ds, false)) ∧
    (∀ (native2 : NativeLib) (database : ClTokenDatabase) (il : List Int)
      (fs : ClFunctionScopeMap),
      (tu.reparse native).1.processAllTokens native2 database il fs =
        ((database, il, fs), false)) := by
  obtain ⟨h, hh⟩ : ∃ h, tu.clTranslUnit = some h := by
    cases htu : tu.clTranslUnit with
    | none => exact absurd htu hlive
    | some v => exact ⟨v, rfl⟩
  have hrep : tu.reparse native = ({ tu with clTranslUnit := none }, true) := by
    unfold ClTranslationUnit.reparse
    rw [hh]
    simp [hfail]
  rw [hrep]
  refine ⟨rfl, rfl, ?_, ?_, ?_, ?_⟩
  · intro native2 filename location
    rfl
  · intro native2 filename location
    rfl
  · intro native2 filename ds
    rfl
  · intro native2 database il fs
    rfl

/-- Witness for the claim C7 theorem at a concrete failing reparse. -/
theorem reparse_failure_disables_unit_witness :
    (c7TU.reparse c7Native).1.clTranslUnit = none ∧
    (c7TU.reparse c7Native).1.getTokenAt c7Native [] ⟨1, 1⟩ = (none, false) ∧
    (c7TU.reparse c7Native).1.getDiagnostics c7Native [] [] = ([], false) := by
  have h := reparse_failure_disables_unit c7Native c7TU (by decide) (by decide)
  exact ⟨h.1, h.2.2.1 c7Native [] ⟨1, 1⟩, h.2.2.2.2.1 c7Native [] []⟩

/-- Claim C8 (code bug): `RemoveToken(0)` does NOT overwrite the stored
token with a blank one — `GetToken(0)` afterwards still returns the
original token with its real file id (the C++ `UpdateToken` fetched the
slot into a by-value copy and the assignment of the blank token's fields
went to that copy), and the asserted precondition fails; likewise
`UpdateToken` on a genuinely blank slot leaves the slot blank instead of
storing the new token's fields. -/
theorem removeToken_slot_not_cleared :
    (c8DB.removeToken 0).2 = false ∧
    (c8DB.removeToken 0).1.getToken 0 = c8Tok ∧
    ((c8DB.removeToken 0).1.getToken 0).fileId ≠ -1 ∧
    (c8Blank.updateToken 0 c8Tok).2 = true ∧
    (c8Blank.updateToken 0 c8Tok).1.getToken 0 = (default : ClAbstractToken) ∧
    (c8Blank.updateToken 0 c8Tok).1.getToken 0 ≠ c8Tok := by
  decide

/-- Claim C10: the USR wildcard rules of the two index lookups differ. On a
database whose stored token has an EMPTY USR, a query with the non-empty
USR `u` still matches in `LookupTokenFileList` (empty on either side is a
wildcard there) and returns the token's file 7, while `LookupTokenPosition`
with the same identifier, USR, type mask and file returns not-found (only
an empty QUERY USR is a wildcard there). -/
theorem lookup_usr_wildcard_divergence :
    (c10DB.indexTokenMap.data.map fun t => t.USR) = [[]] ∧
    c10DB.lookupTokenFileList [97] [117] ClTokenType_FuncDecl = [7] ∧
    c10DB.lookupTokenPosition [97] 7 [117] ClTokenType_FuncDecl = none ∧
    ([117] : Str) ≠ [] := by
  decide

/-! Helper lemmas for the `UpdateToken` idempotence proof (claim C9). -/

theorem ClTokenIndexDatabase.extFields {a b : ClTokenIndexDatabase}
    (h1 : a.fileDB = b.fileDB) (h2 : a.indexTokenMap = b.indexTokenMap)
    (h3 : a.fileTokens = b.fileTokens) (h4 : a.modified = b.modified) : a = b := by
  cases a; cases b; simp_all

theorem eraseOne_of_not_mem {A : Type} [DecidableEq A] {l : List A} {a : A}
    (h : a ∉ l) : eraseOne l a = l := by
  induction l with
  | nil => rfl
  | cons x xs ih =>
    unfold eraseOne
    rw [if_neg (fun hxa => h (by rw [← hxa]; exact List.mem_cons_self x xs))]
    rw [ih fun hm => h (List.mem_cons_of_mem _ hm)]

theorem eraseOne_append_singleton {A : Type} [DecidableEq A] {l : List A}
    {a : A} (h : a ∉ l) : eraseOne (l ++ [a]) a = l := by
  induction l with
  | nil => simp [eraseOne]
  | cons x xs ih =>
    have hxa : ¬ x = a := fun hxa => h (hxa ▸ List.mem_cons_self x xs)
    show eraseOne (x :: (xs ++ [a])) a = x :: xs
    unfold eraseOne
    rw [if_neg hxa, ih fun hm => h (List.mem_cons_of_mem _ hm)]

theorem not_mem_eraseOne_self {A : Type} [DecidableEq A] {l : List A} {a : A}
    (h : l.Nodup) : a ∉ eraseOne l a := by
  induction l with
  | nil => simp [eraseOne]
  | cons x xs ih =>
    have hx : x ∉ xs := (List.nodup_cons.mp h).1
    have hxs : xs.Nodup := (List.nodup_cons.mp h).2
    unfold eraseOne
    by_cases hxa : x = a
    · rw [if_pos hxa]
      exact fun hm => hx (hxa ▸ hm)
    · rw [if_neg hxa]
      intro hm
      rcases List.mem_cons.mp hm with hm | hm
      · exact hxa hm.symm
      · exact ih hxs hm

theorem occCount_eq_zero_of_not_mem {A : Type} [DecidableEq A] {l : List A}
    {a : A} (h : a ∉ l) : occCount a l = 0 := by
  induction l with
  | nil => rfl
  | cons x xs ih =>
    unfold occCount
    rw [if_neg (fun hxa => h (by rw [← hxa]; exact List.mem_cons_self x xs))]
    rw [ih fun hm => h (List.mem_cons_of_mem _ hm)]

theorem occCount_eq_one_of_nodup {A : Type} [DecidableEq A] {l : List A} {a : A}
    (h : l.Nodup) (hm : a ∈ l) : occCount a l = 1 := by
  induction l with
  | nil => cases hm
  | cons x xs ih =>
    have hx : x ∉ xs := (List.nodup_cons.mp h).1
    have hxs : xs.Nodup := (List.nodup_cons.mp h).2
    unfold occCount
    by_cases hxa : x = a
    · rw [if_pos hxa]
      rw [occCount_eq_zero_of_not_mem (fun hma => hx (by rw [hxa]; exact hma))]
    · rw [if_neg hxa]
      rcases List.mem_cons.mp hm with hax | hax
      · exact absurd hax.symm hxa
      · rw [ih hxs hax]

theorem occCount_append {A : Type} [DecidableEq A] (a : A) (l1 l2 : List A) :
    occCount a (l1 ++ l2) = occCount a l1 + occCount a l2 := by
  induction l1 with
  | nil => simp [occCount]
  | cons x xs ih =>
    show occCount a (x :: (xs ++ l2)) = occCount a (x :: xs) + occCount a l2
    have e1 : occCount a (x :: (xs ++ l2)) =
        (if x = a then 1 else 0) + occCount a (xs ++ l2) := rfl
    have e2 : occCount a (x :: xs) = (if x = a then 1 else 0) + occCount a xs := rfl
    rw [e1, e2, ih]
    omega

theorem foldInsP_mem (l acc : List (Str × Str)) (p : Str × Str) :
    p ∈ l.foldl (fun acc2 q => if q ∈ acc2 then acc2 else acc2 ++ [q]) acc ↔
      p ∈ acc ∨ p ∈ l := by
  induction l generalizing acc with
  | nil => simp
  | cons q l ih =>
    simp only [List.foldl_cons]
    by_cases hq : q ∈ acc
    · rw [if_pos hq, ih]
      constructor
      · rintro (h | h)
        · exact Or.inl h
        · exact Or.inr (List.mem_cons_of_mem _ h)
      · rintro (h | h)
        · exact Or.inl h
        · rcases List.mem_cons.mp h with h | h
          · exact Or.inl (h ▸ hq)
          · exact Or.inr h
    · rw [if_neg hq, ih]
      simp only [List.mem_append, List.mem_singleton, List.mem_cons]
      tauto

theorem foldInsP_nodup (l acc : List (Str × Str)) (h : acc.Nodup) :
    (l.foldl (fun acc2 q => if q ∈ acc2 then acc2 else acc2 ++ [q]) acc).Nodup := by
  induction l generalizing acc with
  | nil => exact h
  | cons q l ih =>
    simp only [List.foldl_cons]
    by_cases hq : q ∈ acc
    · rw [if_pos hq]; exact ih acc h
    · rw [if_neg hq]
      refine ih _ ?_
      rw [List.nodup_append]
      refine ⟨h, List.nodup_singleton q, ?_⟩
      intro b hb hbq
      rw [List.mem_singleton.mp hbq] at hb
      exact hq hb

theorem foldInsP_eq_self (l acc : List (Str × Str)) (h : ∀ q ∈ l, q ∈ acc) :
    l.foldl (fun acc2 q => if q ∈ acc2 then acc2 else acc2 ++ [q]) acc = acc := by
  induction l with
  | nil => rfl
  | cons q l ih =>
    simp only [List.foldl_cons, if_pos (h q (List.mem_cons_self q l))]
    exact ih fun q2 hq2 => h q2 (List.mem_cons_of_mem _ hq2)

theorem getD_set_self {A : Type} (l : List A) (i : Nat) (v d : A)
    (h : i < l.length) : (l.set i v).getD i d = v := by
  simp [List.getD_eq_getElem?_getD, List.getElem?_set_self h]

theorem getD_set_ne {A : Type} (l : List A) (i j : Nat) (v d : A) (h : i ≠ j) :
    (l.set i v).getD j d = l.getD j d := by
  simp [List.getD_eq_getElem?_getD, List.getElem?_set_ne h]

theorem getD_append_length {A : Type} (l : List A) (a d : A) :
    (l ++ [a]).getD l.length d = a := by
  rw [List.getD_append_right _ _ _ _ (Nat.le_refl _)]
  simp

theorem set_append_length {A : Type} (l : List A) (a b : A) :
    (l ++ [a]).set l.length b = l ++ [b] := by
  induction l with
  | nil => rfl
  | cons x l ih =>
    show x :: (l ++ [a]).set l.length b = x :: (l ++ [b])
    rw [ih]

theorem getD_mem {A : Type} (l : List A) (i : Nat) (d : A) (h : i < l.length) :
    l.getD i d ∈ l := by
  rw [List.getD_eq_getElem _ _ h]
  exact List.getElem_mem h

theorem le_treeMaxId (tree : List (Str × Nat)) (key : Str) (i : Nat)
    (h : (key, i) ∈ tree) : i ≤ treeMaxId tree := by
  unfold treeMaxId
  induction tree with
  | nil => cases h
  | cons p tree ih =>
    rcases List.mem_cons.mp h with h | h
    · subst h; simp only [List.map_cons, List.foldr_cons]; omega
    · have := ih h
      simp only [List.map_cons, List.foldr_cons]
      omega

theorem mem_treeIdSet (tree : List (Str × Nat)) (key : Str) (i : Nat) :
    i ∈ treeIdSet tree key ↔ (key, i) ∈ tree := by
  unfold treeIdSet
  rw [List.mem_filter]
  constructor
  · rintro ⟨-, h⟩; exact of_decide_eq_true h
  · intro h
    exact ⟨List.mem_range.mpr (Nat.lt_succ_of_le (le_treeMaxId tree key i h)),
      decide_eq_true h⟩

theorem filter_range_stable (p : Nat → Bool) (m n : Nat) (hmn : m ≤ n)
    (h : ∀ i, p i = true → i < m) :
    (List.range n).filter p = (List.range m).filter p := by
  induction n with
  | zero => cases Nat.le_zero.mp hmn; rfl
  | succ n ih =>
    rcases Nat.lt_or_ge m (n + 1) with hlt | hge
    · have h1 : (List.range (n + 1)).filter p = (List.range n).filter p := by
        rw [List.range_succ, List.filter_append]
        have hpn : p n = false := by
          cases hpn : p n with
          | false => rfl
          | true => exact absurd (h n hpn) (by omega)
        simp [hpn]
      rw [h1]
      exact ih (by omega)
    · have hmeq : m = n + 1 := by omega
      subst hmeq
      rfl

theorem treeIdSet_append (tree : List (Str × Nat)) (key : Str) (n : Nat)
    (h : ∀ p ∈ tree, p.2 < n) :
    treeIdSet (tree ++ [(key, n)]) key = treeIdSet tree key ++ [n] := by
  have hmax : n ≤ treeMaxId (tree ++ [(key, n)]) :=
    le_treeMaxId _ key n (List.mem_append_right _ (List.mem_singleton.mpr rfl))
  unfold treeIdSet
  have hstable : (List.range (treeMaxId (tree ++ [(key, n)]) + 1)).filter
      (fun i => decide ((key, i) ∈ tree ++ [(key, n)])) =
      (List.range (n + 1)).filter (fun i => decide ((key, i) ∈ tree ++ [(key, n)])) := by
    apply filter_range_stable _ _ _ (by omega)
    intro i hi
    rcases List.mem_append.mp (of_decide_eq_true hi) with hm | hm
    · exact Nat.lt_succ_of_lt (h _ hm)
    · have : i = n := by simpa using congrArg Prod.snd (List.mem_singleton.mp hm)
      omega
  rw [hstable, List.range_succ, List.filter_append]
  have hn : (decide ((key, n) ∈ tree ++ [(key, n)])) = true :=
    decide_eq_true (List.mem_append_right _ (List.mem_singleton.mpr rfl))
  have hcong : (List.range n).filter (fun i => decide ((key, i) ∈ tree ++ [(key, n)])) =
      (List.range n).filter (fun i => decide ((key, i) ∈ tree)) := by
    apply List.filter_congr
    intro i hi
    have hin : i < n := List.mem_range.mp hi
    cases hdec : decide ((key, i) ∈ tree) with
    | true =>
      exact decide_eq_true (List.mem_append_left _ (of_decide_eq_true hdec))
    | false =>
      apply decide_eq_false
      intro hmem
      rcases List.mem_append.mp hmem with hm | hm
      · exact absurd (decide_eq_true hm) (by simp [hdec])
      · have : i = n := by simpa using congrArg Prod.snd (List.mem_singleton.mp hm)
        omega
  rw [hcong]
  have hstable2 : (List.range (treeMaxId tree + 1)).filter
      (fun i => decide ((key, i) ∈ tree)) =
      (List.range n).filter (fun i => decide ((key, i) ∈ tree)) := by
    rcases Nat.le_total (treeMaxId tree + 1) n with hle | hle
    · symm
      apply filter_range_stable _ _ _ hle
      intro i hi
      exact Nat.lt_succ_of_le (le_treeMaxId tree key i (of_decide_eq_true hi))
    · apply filter_range_stable _ _ _ hle
      intro i hi
      exact h _ (of_decide_eq_true hi)
  rw [hstable2]
  simp [hn]

theorem find?_congr_mem {A : Type} {p q : A → Bool} {l : List A}
    (h : ∀ a ∈ l, p a = q a) : l.find? p = l.find? q := by
  induction l with
  | nil => rfl
  | cons a l ih =>
    cases hpa : p a with
    | true =>
      rw [List.find?_cons_of_pos _ hpa,
        List.find?_cons_of_pos _ ((h a (List.mem_cons_self a l)) ▸ hpa)]
    | false =>
      rw [List.find?_cons_of_neg _ (by simp [hpa]),
        List.find?_cons_of_neg _ (by simp [← h a (List.mem_cons_self a l), hpa])]
      exact ih fun a2 ha2 => h a2 (List.mem_cons_of_mem _ ha2)

theorem mergeIndexToken_eq (tok : ClIndexToken) (t : Nat) (f : Int)
    (r : ClTokenRange) (o : List (Str × Str)) :
    mergeIndexToken tok t f r o =
      { identifier := tok.identifier, displayName := tok.displayName,
        USR := tok.USR, tokenTypeMask := tok.tokenTypeMask ||| t,
        locationList :=
          if (⟨t, f, r⟩ : ClIndexTokenLocation) ∈ tok.locationList then
            tok.locationList
          else tok.locationList ++ [⟨t, f, r⟩],
        parentTokenList :=
          o.foldl (fun acc p => if p ∈ acc then acc else acc ++ [p])
            tok.parentTokenList,
        scope := tok.scope } := by
  simp only [mergeIndexToken]
  split <;> rfl


theorem mergeIndexToken_mem_location (tok : ClIndexToken) (t : Nat) (f : Int)
    (r : ClTokenRange) (o : List (Str × Str)) :
    (⟨t, f, r⟩ : ClIndexTokenLocation) ∈ (mergeIndexToken tok t f r o).locationList := by
  rw [mergeIndexToken_eq]
  dsimp only
  split
  · assumption
  · exact List.mem_append_right _ (List.mem_singleton.mpr rfl)

theorem mergeIndexToken_USR (tok : ClIndexToken) (t : Nat) (f : Int)
    (r : ClTokenRange) (o : List (Str × Str)) :
    (mergeIndexToken tok t f r o).USR = tok.USR := by
  rw [mergeIndexToken_eq]

theorem mergeIndexToken_idem (tok : ClIndexToken) (t : Nat) (f : Int)
    (r : ClTokenRange) (o : List (Str × Str)) :
    mergeIndexToken (mergeIndexToken tok t f r o) t f r o =
      mergeIndexToken tok t f r o := by
  have hmem := mergeIndexToken_mem_location tok t f r o
  rw [mergeIndexToken_eq (mergeIndexToken tok t f r o)]
  rw [if_pos hmem]
  rw [foldInsP_eq_self o _ (fun q hq => by
    rw [mergeIndexToken_eq]
    dsimp only
    exact (foldInsP_mem o tok.parentTokenList q).mpr (Or.inr hq))]
  have hmask : (mergeIndexToken tok t f r o).tokenTypeMask ||| t =
      (mergeIndexToken tok t f r o).tokenTypeMask := by
    rw [mergeIndexToken_eq]
    dsimp only
    rw [Nat.lor_assoc, Nat.or_self]
  rw [hmask]

theorem mergeIndexToken_occ_location (tok : ClIndexToken) (t : Nat) (f : Int)
    (r : ClTokenRange) (o : List (Str × Str)) (h : tok.locationList.Nodup) :
    occCount (⟨t, f, r⟩ : ClIndexTokenLocation)
      (mergeIndexToken tok t f r o).locationList = 1 := by
  rw [mergeIndexToken_eq]
  dsimp only
  split
  · exact occCount_eq_one_of_nodup h (by assumption)
  · rw [occCount_append, occCount_eq_zero_of_not_mem (by assumption)]
    simp [occCount]

theorem mergeIndexToken_occ_parent (tok : ClIndexToken) (t : Nat) (f : Int)
    (r : ClTokenRange) (o : List (Str × Str)) (h : tok.parentTokenList.Nodup)
    (p : Str × Str) (hp : p ∈ o) :
    occCount p (mergeIndexToken tok t f r o).parentTokenList = 1 := by
  rw [mergeIndexToken_eq]
  dsimp only
  exact occCount_eq_one_of_nodup (foldInsP_nodup o _ h)
    ((foldInsP_mem o _ p).mpr (Or.inr hp))

theorem mergeIndexToken_fresh (identifier displayName USR : Str) (t : Nat)
    (f : Int) (r : ClTokenRange) (o : List (Str × Str)) (scope : Str × Str) :
    mergeIndexToken ⟨identifier, displayName, USR, t, [⟨t, f, r⟩], o, scope⟩
      t f r o = ⟨identifier, displayName, USR, t, [⟨t, f, r⟩], o, scope⟩ := by
  rw [mergeIndexToken_eq]
  dsimp only
  rw [if_pos (List.mem_singleton.mpr rfl)]
  rw [foldInsP_eq_self o o (fun q hq => hq)]
  rw [Nat.or_self]

theorem updateToken_merge_eq (db : ClTokenIndexDatabase)
    (identifier displayName : Str) (fileId : Int) (USR : Str) (tokType : Nat)
    (tokenRange : ClTokenRange) (ovr : List (Str × Str)) (scope : Str × Str)
    (i : Nat) (hfind : db.findTokenId identifier USR = some i) :
    db.updateToken identifier displayName fileId USR tokType tokenRange ovr scope =
      { db with
        indexTokenMap := { db.indexTokenMap with
          data := db.indexTokenMap.data.set i
            (mergeIndexToken (db.indexTokenMap.getValue i) tokType fileId
              tokenRange ovr) },
        fileTokens := (eraseOne db.fileTokens (intToStr fileId, i)) ++
          [(intToStr fileId, i)],
        modified := true } := by
  rw [ClTokenIndexDatabase.updateToken, hfind]

theorem updateToken_fresh_eq (db : ClTokenIndexDatabase)
    (identifier displayName : Str) (fileId : Int) (USR : Str) (tokType : Nat)
    (tokenRange : ClTokenRange) (ovr : List (Str × Str)) (scope : Str × Str)
    (hfind : db.findTokenId identifier USR = none) :
    db.updateToken identifier displayName fileId USR tokType tokenRange ovr scope =
      { db with
        indexTokenMap :=
          ⟨db.indexTokenMap.tree ++ [(identifier, db.indexTokenMap.data.length)],
            db.indexTokenMap.data ++
              [⟨identifier, displayName, USR, tokType,
                [⟨tokType, fileId, tokenRange⟩], ovr, scope⟩]⟩,
        fileTokens := db.fileTokens ++
          [(intToStr fileId, db.indexTokenMap.data.length)],
        modified := true } := by
  rw [ClTokenIndexDatabase.updateToken, hfind]

theorem findTokenId_after_set (db : ClTokenIndexDatabase)
    (fdb2 : ClTreeMap ClFilenameEntry) (ft2 : List (Str × Nat)) (m2 : Bool)
    (identifier USR : Str) (i : Nat) (tok3 : ClIndexToken)
    (hfind : db.findTokenId identifier USR = some i)
    (hUSR : tok3.USR = USR) :
    ClTokenIndexDatabase.findTokenId
      ⟨fdb2, ⟨db.indexTokenMap.tree, db.indexTokenMap.data.set i tok3⟩, ft2, m2⟩
      identifier USR = some i := by
  have hfind2 : (treeIdSet db.indexTokenMap.tree identifier).find?
      (fun j => decide ((db.indexTokenMap.data.getD j default).USR = USR)) =
      some i := hfind
  have hpred : (db.indexTokenMap.data.getD i default).USR = USR := by
    have h2 := List.find?_some hfind2
    exact of_decide_eq_true h2
  have hcong : ∀ j ∈ treeIdSet db.indexTokenMap.tree identifier,
      (decide (((db.indexTokenMap.data.set i tok3).getD j default).USR = USR)) =
      (decide ((db.indexTokenMap.data.getD j default).USR = USR)) := by
    intro j hj
    by_cases hij : i = j
    · subst hij
      rcases Nat.lt_or_ge i db.indexTokenMap.data.length with hlt | hge
      · rw [getD_set_self _ _ _ _ hlt, hUSR, hpred]
      · rw [List.set_eq_of_length_le hge]
    · rw [getD_set_ne _ _ _ _ _ hij]
  show (treeIdSet db.indexTokenMap.tree identifier).find?
      (fun j => decide (((db.indexTokenMap.data.set i tok3).getD j default).USR = USR)) =
      some i
  rw [find?_congr_mem hcong]
  exact hfind2

theorem findTokenId_after_append (db : ClTokenIndexDatabase)
    (fdb2 : ClTreeMap ClFilenameEntry) (ft2 : List (Str × Nat)) (m2 : Bool)
    (identifier : Str) (USR : Str) (newTok : ClIndexToken)
    (hfind : db.findTokenId identifier USR = none)
    (hUSR : newTok.USR = USR)
    (hIds : ∀ p ∈ db.indexTokenMap.tree, p.2 < db.indexTokenMap.data.length) :
    ClTokenIndexDatabase.findTokenId
      ⟨fdb2, ⟨db.indexTokenMap.tree ++ [(identifier, db.indexTokenMap.data.length)],
        db.indexTokenMap.data ++ [newTok]⟩, ft2, m2⟩ identifier USR =
      some db.indexTokenMap.data.length := by
  have hfind2 : (treeIdSet db.indexTokenMap.tree identifier).find?
      (fun j => decide ((db.indexTokenMap.data.getD j default).USR = USR)) =
      none := hfind
  show (treeIdSet (db.indexTokenMap.tree ++
      [(identifier, db.indexTokenMap.data.length)]) identifier).find?
      (fun j => decide (((db.indexTokenMap.data ++ [newTok]).getD j default).USR = USR)) =
      some db.indexTokenMap.data.length
  rw [treeIdSet_append _ _ _ hIds]
  rw [List.find?_append]
  have hcong : ∀ j ∈ treeIdSet db.indexTokenMap.tree identifier,
      (decide (((db.indexTokenMap.data ++ [newTok]).getD j default).USR = USR)) =
      (decide ((db.indexTokenMap.data.getD j default).USR = USR)) := by
    intro j hj
    have hjlt : j < db.indexTokenMap.data.length :=
      hIds _ ((mem_treeIdSet _ _ _).mp hj)
    rw [List.getD_append _ _ _ _ hjlt]
  have h1 : (treeIdSet db.indexTokenMap.tree identifier).find?
      (fun j => decide (((db.indexTokenMap.data ++ [newTok]).getD j default).USR = USR)) =
      none := by
    rw [find?_congr_mem hcong]
    exact hfind2
  rw [h1]
  show ([db.indexTokenMap.data.length].find?
    (fun j => decide (((db.indexTokenMap.data ++ [newTok]).getD j default).USR = USR))) =
    some db.indexTokenMap.data.length
  rw [List.find?_cons_of_pos _ (by
    rw [getD_append_length, hUSR]
    simp)]


theorem updateToken_idem_merge (db : ClTokenIndexDatabase)
    (identifier displayName : Str) (fileId : Int) (USR : Str) (tokType : Nat)
    (tokenRange : ClTokenRange) (ovr : List (Str × Str)) (scope : Str × Str)
    (i : Nat) (hfind : db.findTokenId identifier USR = some i)
    (hIds : ∀ p ∈ db.indexTokenMap.tree, p.2 < db.indexTokenMap.data.length)
    (hFtNodup : db.fileTokens.Nodup)
    (hLocs : ∀ t ∈ db.indexTokenMap.data, t.locationList.Nodup)
    (hPars : ∀ t ∈ db.indexTokenMap.data, t.parentTokenList.Nodup) :
    (db.updateToken identifier displayName fileId USR tokType tokenRange ovr
      scope).modified = true ∧
    ((db.updateToken identifier displayName fileId USR tokType tokenRange ovr
      scope).updateToken identifier displayName fileId USR tokType tokenRange
      ovr scope) =
      db.updateToken identifier displayName fileId USR tokType tokenRange ovr
        scope ∧
    ∃ j, (db.updateToken identifier displayName fileId USR tokType tokenRange
        ovr scope).findTokenId identifier USR = some j ∧
      occCount (⟨tokType, fileId, tokenRange⟩ : ClIndexTokenLocation)
        (((db.updateToken identifier displayName fileId USR tokType tokenRange
          ovr scope).indexTokenMap.getValue j).locationList) = 1 ∧
      ∀ p ∈ ovr, occCount p
        (((db.updateToken identifier displayName fileId USR tokType tokenRange
          ovr scope).indexTokenMap.getValue j).parentTokenList) = 1 := by
  have hfind2 : (treeIdSet db.indexTokenMap.tree identifier).find?
      (fun j => decide ((db.indexTokenMap.data.getD j default).USR = USR)) =
      some i := hfind
  have hmem : (identifier, i) ∈ db.indexTokenMap.tree :=
    (mem_treeIdSet _ _ _).mp (List.mem_of_find?_eq_some hfind2)
  have hlen : i < db.indexTokenMap.data.length := hIds _ hmem
  have hUSRi : (db.indexTokenMap.getValue i).USR = USR := by
    have h2 := List.find?_some hfind2
    exact of_decide_eq_true h2
  have h1 := updateToken_merge_eq db identifier displayName fileId USR tokType
    tokenRange ovr scope i hfind
  have htok3USR : (mergeIndexToken (db.indexTokenMap.getValue i) tokType fileId
      tokenRange ovr).USR = USR := by
    rw [mergeIndexToken_USR]
    exact hUSRi
  have hfind1 : (db.updateToken identifier displayName fileId USR tokType
      tokenRange ovr scope).findTokenId identifier USR = some i := by
    rw [h1]
    exact findTokenId_after_set db db.fileDB _ _ identifier USR i _ hfind htok3USR
  have hval1 : (db.updateToken identifier displayName fileId USR tokType
      tokenRange ovr scope).indexTokenMap.getValue i =
      mergeIndexToken (db.indexTokenMap.getValue i) tokType fileId tokenRange
        ovr := by
    rw [h1]
    show (db.indexTokenMap.data.set i _).getD i default = _
    exact getD_set_self _ _ _ _ hlen
  have h2 := updateToken_merge_eq
    (db.updateToken identifier displayName fileId USR tokType tokenRange ovr
      scope) identifier displayName fileId USR tokType tokenRange ovr scope i
    hfind1
  refine ⟨by rw [h1], ?_, i, hfind1, ?_, ?_⟩
  · rw [h2, hval1, mergeIndexToken_idem, h1]
    dsimp only
    rw [List.set_set]
    rw [eraseOne_append_singleton (not_mem_eraseOne_self hFtNodup)]
  · rw [hval1]
    exact mergeIndexToken_occ_location _ _ _ _ _
      (hLocs _ (getD_mem _ _ _ hlen))
  · intro p hp
    rw [hval1]
    exact mergeIndexToken_occ_parent _ _ _ _ _
      (hPars _ (getD_mem _ _ _ hlen)) p hp

theorem updateToken_idem_fresh (db : ClTokenIndexDatabase)
    (identifier displayName : Str) (fileId : Int) (USR : Str) (tokType : Nat)
    (tokenRange : ClTokenRange) (ovr : List (Str × Str)) (scope : Str × Str)
    (hfind : db.findTokenId identifier USR = none)
    (hIds : ∀ p ∈ db.indexTokenMap.tree, p.2 < db.indexTokenMap.data.length)
    (hFtVal : ∀ p ∈ db.fileTokens, p.2 < db.indexTokenMap.data.length)
    (hOvr : ovr.Nodup) :
    (db.updateToken identifier displayName fileId USR tokType tokenRange ovr
      scope).modified = true ∧
    ((db.updateToken identifier displayName fileId USR tokType tokenRange ovr
      scope).updateToken identifier displayName fileId USR tokType tokenRange
      ovr scope) =
      db.updateToken identifier displayName fileId USR tokType tokenRange ovr
        scope ∧
    ∃ j, (db.updateToken identifier displayName fileId USR tokType tokenRange
        ovr scope).findTokenId identifier USR = some j ∧
      occCount (⟨tokType, fileId, tokenRange⟩ : ClIndexTokenLocation)
        (((db.updateToken identifier displayName fileId USR tokType tokenRange
          ovr scope).indexTokenMap.getValue j).locationList) = 1 ∧
      ∀ p ∈ ovr, occCount p
        (((db.updateToken identifier displayName fileId USR tokType tokenRange
          ovr scope).indexTokenMap.getValue j).parentTokenList) = 1 := by
  have h1 := updateToken_fresh_eq db identifier displayName fileId USR tokType
    tokenRange ovr scope hfind
  have hyNotMem : (intToStr fileId, db.indexTokenMap.data.length) ∉
      db.fileTokens := by
    intro hy
    exact absurd (hFtVal _ hy) (by omega)
  have hfind1 : (db.updateToken identifier displayName fileId USR tokType
      tokenRange ovr scope).findTokenId identifier USR =
      some db.indexTokenMap.data.length := by
    rw [h1]
    exact findTokenId_after_append db db.fileDB _ _ identifier USR _ hfind rfl
      hIds
  have hval1 : (db.updateToken identifier displayName fileId USR tokType
      tokenRange ovr scope).indexTokenMap.getValue
      db.indexTokenMap.data.length =
      ⟨identifier, displayName, USR, tokType,
        [⟨tokType, fileId, tokenRange⟩], ovr, scope⟩ := by
    rw [h1]
    show (db.indexTokenMap.data ++ [_]).getD db.indexTokenMap.data.length
      default = _
    exact getD_append_length _ _ _
  have h2 := updateToken_merge_eq
    (db.updateToken identifier displayName fileId USR tokType tokenRange ovr
      scope) identifier displayName fileId USR tokType tokenRange ovr scope
    db.indexTokenMap.data.length hfind1
  refine ⟨by rw [h1], ?_, db.indexTokenMap.data.length, hfind1, ?_, ?_⟩
  · rw [h2, hval1, mergeIndexToken_fresh, h1]
    dsimp only
    rw [set_append_length]
    rw [eraseOne_append_singleton hyNotMem]
  · rw [hval1]
    show occCount _ [(⟨tokType, fileId, tokenRange⟩ : ClIndexTokenLocation)] = 1
    simp [occCount]
  · intro p hp
    rw [hval1]
    exact occCount_eq_one_of_nodup hOvr hp


/-- Claim C9 as amended: on a well-formed database — tree ids within the
value-table bounds (an out-of-range id makes the C++ `GetValue` index out
of bounds), file-index entries in bounds and duplicate-free, and every
stored token's location and override lists duplicate-free, which every
database built by `UpdateToken` alone satisfies — calling `UpdateToken`
twice with exactly identical arguments (the override list itself
duplicate-free) sets the modified flag, leaves the database after the
second call exactly equal to the database after the first (no duplicate
growth anywhere), and the matched token ends up with exactly one location
entry equal to the passed (type, file, range) and exactly one override
entry per passed pair. -/
theorem updateToken_idempotent (db : ClTokenIndexDatabase)
    (identifier displayName : Str) (fileId : Int) (USR : Str) (tokType : Nat)
    (tokenRange : ClTokenRange) (ovr : List (Str × Str)) (scope : Str × Str)
    (hIds : ∀ p ∈ db.indexTokenMap.tree, p.2 < db.indexTokenMap.data.length)
    (hFtVal : ∀ p ∈ db.fileTokens, p.2 < db.indexTokenMap.data.length)
    (hFtNodup : db.fileTokens.Nodup)
    (hLocs : ∀ t ∈ db.indexTokenMap.data, t.locationList.Nodup)
    (hPars : ∀ t ∈ db.indexTokenMap.data, t.parentTokenList.Nodup)
    (hOvr : ovr.Nodup) :
    (db.updateToken identifier displayName fileId USR tokType tokenRange ovr
      scope).modified = true ∧
    ((db.updateToken identifier displayName fileId USR tokType tokenRange ovr
      scope).updateToken identifier displayName fileId USR tokType tokenRange
      ovr scope) =
      db.updateToken identifier displayName fileId USR tokType tokenRange ovr
        scope ∧
    ∃ j, (db.updateToken identifier displayName fileId USR tokType tokenRange
        ovr scope).findTokenId identifier USR = some j ∧
      occCount (⟨tokType, fileId, tokenRange⟩ : ClIndexTokenLocation)
        (((db.updateToken identifier displayName fileId USR tokType tokenRange
          ovr scope).indexTokenMap.getValue j).locationList) = 1 ∧
      ∀ p ∈ ovr, occCount p
        (((db.updateToken identifier displayName fileId USR tokType tokenRange
          ovr scope).indexTokenMap.getValue j).parentTokenList) = 1 := by
  cases hfind : db.findTokenId identifier USR with
  | some i =>
    exact updateToken_idem_merge db identifier displayName fileId USR tokType
      tokenRange ovr scope i hfind hIds hFtNodup hLocs hPars
  | none =>
    exact updateToken_idem_fresh db identifier displayName fileId USR tokType
      tokenRange ovr scope hfind hIds hFtVal hOvr

/-- Witness for the claim C9 theorem at a concrete input. -/
theorem updateToken_idempotent_witness :
    ((emptyIndexDB.updateToken [97] [65] 0 [117] 2 rangeA [([98], [99])]
      ([], [])).updateToken [97] [65] 0 [117] 2 rangeA [([98], [99])]
      ([], [])) =
      emptyIndexDB.updateToken [97] [65] 0 [117] 2 rangeA [([98], [99])]
        ([], []) ∧
    (emptyIndexDB.updateToken [97] [65] 0 [117] 2 rangeA [([98], [99])]
      ([], [])).modified = true := by
  have h := updateToken_idempotent emptyIndexDB [97] [65] 0 [117] 2 rangeA
    [([98], [99])] ([], []) (by decide) (by decide) (by decide) (by decide)
    (by decide) (by decide)
  exact ⟨h.2.1, h.1⟩


/-- Claim C9 counterexample (to the unrestricted "for every database
state" reading): on `c9DupDB`, whose token already holds the same location
twice, two `UpdateToken` calls with identical arguments leave TWO location
entries matching the arguments, not exactly one. -/
theorem updateToken_idempotent_cex :
    occCount (⟨2, 0, rangeA⟩ : ClIndexTokenLocation)
      ((((c9DupDB.updateToken [97] [65] 0 [117] 2 rangeA [] ([], [])).updateToken
        [97] [65] 0 [117] 2 rangeA [] ([], [])).indexTokenMap.getValue
        0).locationList) = 2 := by
  decide

end ClangLib
